import Mathlib

/-!
Verification of the freight coordination core: a shallow embedding of the
control-plane protocol codec (`src/socket.rs`, `parse_worker_message`), the
worker registry update performed by the connection handler
(`handle_worker_connection`), and the migration orchestrator's reaction to
`Stop` messages (`src/worker.rs`, `WorkerManager::handle_worker_message`).
Strings are modelled by Lean `String`, machine integers by `Nat` with the
explicit bounds `2^32` (for `u32`) and `2^64` (for `u64`), hash maps by
association lists with first-match lookup, and fallible parsing by an
explicit result type.  A Rust slice-index panic is modelled by a dedicated
`panicked` outcome.
-/

namespace Freight

/-! ### String utilities mirroring Rust `str` operations -/

/-- Removal of a leading key from a character list: `chop k s` returns the
remainder of `s` after `k` when `k` is a leading segment of `s`, and `none`
otherwise.  This models Rust `str::strip_prefix` on the underlying bytes. -/
def chop : List Char → List Char → Option (List Char)
  | [], s => some s
  | _ :: _, [] => none
  | p :: ps, c :: cs => if c = p then chop ps cs else none

/-- Model of `part.strip_prefix(key)`: the value after `key` when `part`
starts with `key`. -/
def matchKey (key t : String) : Option String :=
  (chop key.data t.data).map (fun cs => ⟨cs⟩)

/-- Accumulating splitter behind `tokens`; `cur` holds the characters of the
current token in reverse order. -/
def wsplitAux : List Char → List Char → List (List Char)
  | [], cur => if cur = [] then [] else [cur.reverse]
  | c :: cs, cur =>
    if c.isWhitespace then
      if cur = [] then wsplitAux cs [] else cur.reverse :: wsplitAux cs []
    else wsplitAux cs (c :: cur)

/-- Model of Rust `str::split_whitespace` followed by `collect`: the list of
maximal non-whitespace runs of the line, in order, with no empty tokens. -/
def tokens (s : String) : List String :=
  (wsplitAux s.data []).map (fun cs => ⟨cs⟩)

/-- Characters of a line with leading and trailing whitespace removed. -/
def trimChars (cs : List Char) : List Char :=
  ((cs.dropWhile Char.isWhitespace).reverse.dropWhile Char.isWhitespace).reverse

/-- Model of Rust `str::trim`. -/
def trimStr (s : String) : String := ⟨trimChars s.data⟩

/-- Numeric value of a decimal digit character, `none` for any other
character. -/
def charDigit? (c : Char) : Option Nat :=
  if '0' ≤ c ∧ c ≤ '9' then some (c.toNat - '0'.toNat) else none

/-- Left-to-right accumulation of decimal digits; fails on the first
non-digit character. -/
def parseNatAux : List Char → Nat → Option Nat
  | [], acc => some acc
  | c :: cs, acc =>
    match charDigit? c with
    | some d => parseNatAux cs (acc * 10 + d)
    | none => none

/-- Model of the digit-string part of Rust integer `FromStr`: an optional
leading `+`, then at least one decimal digit and nothing else. -/
def parseNat? (cs : List Char) : Option Nat :=
  match cs with
  | [] => none
  | _ =>
    let cs' := match cs with
      | '+' :: rest => rest
      | _ => cs
    match cs' with
    | [] => none
    | _ => parseNatAux cs' 0

/-- Model of `value.parse::<u32>().ok()`: fails (is absent) when the text is
not a decimal number or overflows 32 bits. -/
def parseU32 (s : String) : Option Nat :=
  (parseNat? s.data).bind (fun n => if n < 2 ^ 32 then some n else none)

/-- Model of `value.parse::<u64>().ok()`. -/
def parseU64 (s : String) : Option Nat :=
  (parseNat? s.data).bind (fun n => if n < 2 ^ 64 then some n else none)

/-! ### Protocol messages (`src/socket.rs`) -/

/-- The four wire message kinds of `enum MessageType`. -/
inductive MessageType where
  | hello
  | start
  | progress
  | stop
  deriving DecidableEq

/-- The decoded message record `struct WorkerMessage`: `tool` is a mandatory
string (defaulted by the parser), every other payload field is optional. -/
structure WorkerMessage where
  message_type : MessageType
  tool : String
  directory : Option String
  status : Option String
  bytes : Option Nat
  message : Option String
  host : Option String
  pid : Option Nat
  deriving DecidableEq

/-- Outcome of running the parser on one line: a decoded message, a protocol
error carrying the error text (`anyhow::anyhow!`), or a Rust panic (an
out-of-range slice index), which kills the connection-handler task. -/
inductive ParseResult (α : Type) where
  | ok (a : α)
  | protocolError (e : String)
  | panicked
  deriving DecidableEq

/-- Truth of `ParseResult` being the protocol-error outcome. -/
def ParseResult.isProtocolError {α : Type} : ParseResult α → Bool
  | .protocolError _ => true
  | _ => false

/-- Accumulator update for one token of a `HELLO` line: the `host=` /
`pid=` chain of `parse_worker_message`. -/
def helloStep (acc : Option String × Option Nat) (t : String) :
    Option String × Option Nat :=
  match matchKey "host=" t with
  | some v => (some v, acc.2)
  | none =>
    match matchKey "pid=" t with
    | some v => (acc.1, parseU32 v)
    | none => acc

/-- Accumulator update for one token of a `START` line: the `tool=` /
`dir=` chain. -/
def startStep (acc : String × Option String) (t : String) :
    String × Option String :=
  match matchKey "tool=" t with
  | some v => (v, acc.2)
  | none =>
    match matchKey "dir=" t with
    | some v => (acc.1, some v)
    | none => acc

/-- Mutable locals of the `PROGRESS` branch of `parse_worker_message`. -/
structure ProgAcc where
  tool : String
  directory : Option String
  message : Option String
  bytes : Option Nat
  deriving DecidableEq

/-- Accumulator update for one token of a `PROGRESS` line: the `tool=` /
`dir=` / `msg=` / `bytes=` chain. -/
def progressStep (acc : ProgAcc) (t : String) : ProgAcc :=
  match matchKey "tool=" t with
  | some v => { acc with tool := v }
  | none =>
    match matchKey "dir=" t with
    | some v => { acc with directory := some v }
    | none =>
      match matchKey "msg=" t with
      | some v => { acc with message := some v }
      | none =>
        match matchKey "bytes=" t with
        | some v => { acc with bytes := parseU64 v }
        | none => acc

/-- Mutable locals of the `STOP` branch of `parse_worker_message`. -/
structure StopAcc where
  tool : String
  directory : Option String
  status : Option String
  bytes : Option Nat
  message : Option String
  deriving DecidableEq

/-- Accumulator update for one token of a `STOP` line: the `tool=` / `dir=` /
`status=` / `bytes=` / `msg=` chain. -/
def stopStep (acc : StopAcc) (t : String) : StopAcc :=
  match matchKey "tool=" t with
  | some v => { acc with tool := v }
  | none =>
    match matchKey "dir=" t with
    | some v => { acc with directory := some v }
    | none =>
      match matchKey "status=" t with
      | some v => { acc with status := some v }
      | none =>
        match matchKey "bytes=" t with
        | some v => { acc with bytes := parseU64 v }
        | none =>
          match matchKey "msg=" t with
          | some v => { acc with message := some v }
          | none => acc

/-- Message built by the `HELLO` branch from the tokens after the skipped
version slot (`&parts[2..]`). -/
def mkHello (toks : List String) : WorkerMessage :=
  let acc := toks.foldl helloStep (none, none)
  { message_type := .hello, tool := "unknown", directory := none,
    status := none, bytes := none, message := none,
    host := acc.1, pid := acc.2 }

/-- Message built by the `START` branch from the tokens after the kind
(`&parts[1..]`). -/
def mkStart (toks : List String) : WorkerMessage :=
  let acc := toks.foldl startStep ("unknown", none)
  { message_type := .start, tool := acc.1, directory := acc.2,
    status := none, bytes := none, message := none,
    host := none, pid := none }

/-- Message built by the `PROGRESS` branch from the tokens after the kind. -/
def mkProgress (toks : List String) : WorkerMessage :=
  let acc := toks.foldl progressStep ⟨"unknown", none, none, none⟩
  { message_type := .progress, tool := acc.tool, directory := acc.directory,
    status := none, bytes := acc.bytes, message := acc.message,
    host := none, pid := none }

/-- Message built by the `STOP` branch from the tokens after the kind. -/
def mkStop (toks : List String) : WorkerMessage :=
  let acc := toks.foldl stopStep ⟨"unknown", none, none, none, none⟩
  { message_type := .stop, tool := acc.tool, directory := acc.directory,
    status := acc.status, bytes := acc.bytes, message := acc.message,
    host := none, pid := none }

/-- Dispatch of `parse_worker_message` on the token list `parts`.  The
`HELLO` branch iterates `&parts[2..]`, which panics when `parts` has fewer
than two elements; the other branches iterate `&parts[1..]`. -/
def parseFromParts : List String → ParseResult WorkerMessage
  | [] => .protocolError "Empty message"
  | t :: rest =>
    if t = "HELLO" then
      match rest with
      | [] => .panicked
      | _ :: rest2 => .ok (mkHello rest2)
    else if t = "START" then .ok (mkStart rest)
    else if t = "PROGRESS" then .ok (mkProgress rest)
    else if t = "STOP" then .ok (mkStop rest)
    else .protocolError ("Unknown message type: " ++ t)

/-- Model of `parse_worker_message`: split the line on whitespace and
dispatch on the first token. -/
def parse_worker_message (line : String) : ParseResult WorkerMessage :=
  parseFromParts (tokens line)

/-- One overwrite step of `kvLast`: a token carrying the key replaces the
accumulated value. -/
def kvStep (key : String) (a : Option String) (t : String) : Option String :=
  match matchKey key t with
  | some v => some v
  | none => a

/-- Last value carried by a `key=`-style token of the list, scanning left to
right with overwrite; `none` when no token carries the key.  This is the
order-insensitive characterisation the parser folds compute. -/
def kvLast (key : String) (toks : List String) : Option String :=
  toks.foldl (kvStep key) none

/-! ### Worker registry and connection handler (`src/socket.rs`) -/

/-- Registry record `struct WorkerState`. -/
structure WorkerState where
  tool : String
  directory : Option String
  status : String
  last_message : Option String
  bytes_transferred : Option Nat
  host : Option String
  pid : Option Nat
  connected : Bool
  deriving DecidableEq

/-- First-match lookup in an association list; models `HashMap::get`. -/
def alookup {α : Type} : List (String × α) → String → Option α
  | [], _ => none
  | (k', v') :: rest, k => if k' = k then some v' else alookup rest k

/-- In-place update or append in an association list; models the write part
of `HashMap::entry` / `HashMap::insert`. -/
def aset {α : Type} : List (String × α) → String → α → List (String × α)
  | [], k, v => [(k, v)]
  | (k', v') :: rest, k, v =>
    if k' = k then (k, v) :: rest else (k', v') :: aset rest k v

/-- Composite identity string built from a tool and an optional directory:
`format!("{}:{}", tool, directory.as_deref().unwrap_or("unknown"))`. -/
def workerIdOf (tool : String) (dir : Option String) : String :=
  tool ++ ":" ++ dir.getD "unknown"

/-- Identity computed by the connection handler for a decoded message. -/
def messageId (m : WorkerMessage) : String :=
  workerIdOf m.tool m.directory

/-- Record inserted by `or_insert_with` on first sight of an identity. -/
def freshState (m : WorkerMessage) : WorkerState :=
  { tool := m.tool, directory := m.directory, status := "unknown",
    last_message := none, bytes_transferred := none,
    host := none, pid := none, connected := true }

/-- Per-kind mutation of the registry record performed by the `match` in
`handle_worker_connection`. -/
def applyMessage (m : WorkerMessage) (w : WorkerState) : WorkerState :=
  match m.message_type with
  | .hello =>
    { w with host := m.host, pid := m.pid, connected := true,
             status := "connected" }
  | .start => { w with status := "running" }
  | .progress =>
    { w with last_message := m.message,
             bytes_transferred :=
               match m.bytes with
               | some b => some b
               | none => w.bytes_transferred }
  | .stop =>
    { w with status := m.status.getD "completed",
             bytes_transferred :=
               match m.bytes with
               | some b => some b
               | none => w.bytes_transferred }

/-- The registry table of `SocketServer.workers`. -/
abbrev Registry := List (String × WorkerState)

/-- Registry effect of one decoded message: fetch or create the record of
the message's identity, then apply the per-kind mutation. -/
def registryStep (m : WorkerMessage) (reg : Registry) : Registry :=
  aset reg (messageId m)
    (applyMessage m ((alookup reg (messageId m)).getD (freshState m)))

/-- Connection-local state of `handle_worker_connection`: the shared
registry and the `worker_id` variable remembering the last identity seen on
this connection. -/
structure ConnState where
  registry : Registry
  workerId : Option String
  deriving DecidableEq

/-- Outcome of handling one received line: the next connection state
together with the message broadcast on the status bus (if any), or a crash
of the handler task (a panic inside parsing). -/
inductive LineResult where
  | next (st : ConnState) (published : Option WorkerMessage)
  | crashed
  deriving DecidableEq

/-- Handling of one raw line in the `Ok(_)` branch of the read loop: trim,
skip empty lines, parse, update the registry and remember the identity on
success, log and continue on a protocol error. -/
def handleLine (st : ConnState) (rawLine : String) : LineResult :=
  let line := trimStr rawLine
  if line.data = [] then .next st none
  else
    match parse_worker_message line with
    | .ok m =>
      .next ⟨registryStep m st.registry, some (messageId m)⟩ (some m)
    | .protocolError _ => .next st none
    | .panicked => .crashed

/-- Iterated line handling: the read loop over a list of received lines,
stopping early (with no final state) if the handler task crashes. -/
def processLines (st : ConnState) : List String → Option ConnState
  | [] => some st
  | l :: ls =>
    match handleLine st l with
    | .next st' _ => processLines st' ls
    | .crashed => none

/-- End-of-stream handling (`Ok(0)` branch): when an identity was
associated with the connection and its record exists, clear the record's
connectivity flag; otherwise change nothing. -/
def handleEof (wid : Option String) (reg : Registry) : Registry :=
  match wid with
  | some id =>
    match alookup reg id with
    | some w => aset reg id { w with connected := false }
    | none => reg
  | none => reg

/-- End-of-stream step of the connection handler: the updated registry
paired with the list of messages published on the status bus by this branch
(none — the `Ok(0)` branch never calls `message_tx.send`). -/
def handleEofStep (st : ConnState) : Registry × List WorkerMessage :=
  (handleEof st.workerId st.registry, [])

/-! ### Migration orchestrator (`src/worker.rs`) -/

/-- Lifecycle state `enum WorkerStatus` of a managed worker. -/
inductive WorkerStatus where
  | pending
  | running
  | completed
  | failed
  deriving DecidableEq

/-- Orchestrator-side handle `struct WorkerInfo` for a launched worker;
`directory` models the `PathBuf` through its display string. -/
structure WorkerInfo where
  tool : String
  directory : String
  status : WorkerStatus
  pid : Option Nat
  deriving DecidableEq

/-- The orchestrator's managed-worker table `WorkerManager.workers`. -/
abbrev Managed := List (String × WorkerInfo)

/-- Model of `WorkerManager::start_migrate_worker`: record the freshly
spawned migrate worker under the key `migrate:<dir>` with status `Running`.
The OS-assigned process id of the spawned child is passed in as `pid`; the
external process spawn itself and the destination-path computation are
outside the model. -/
def start_migrate_worker (ws : Managed) (d : String) (pid : Option Nat) :
    Managed :=
  aset ws ("migrate:" ++ d) ⟨"migrate", d, .running, pid⟩

/-- Model of `WorkerManager::handle_worker_message`: the managed table after
the message together with the list of directories for which a migrate worker
was launched while handling it.  Only `Stop` messages whose identity matches
a managed entry have any effect; the entry's status becomes `Completed`
exactly when the message status is `"ok"`, and a migrate worker is launched
when additionally the tool is `"scan"` and the message carries a
directory. -/
def handle_worker_message (ws : Managed) (m : WorkerMessage)
    (spawnPid : Option Nat) : Managed × List String :=
  match m.message_type with
  | .stop =>
    let workerId := workerIdOf m.tool m.directory
    match alookup ws workerId with
    | some w =>
      let newStatus :=
        if m.status = some "ok" then WorkerStatus.completed
        else WorkerStatus.failed
      let ws1 := aset ws workerId { w with status := newStatus }
      if m.tool = "scan" ∧ newStatus = WorkerStatus.completed then
        match m.directory with
        | some d => (start_migrate_worker ws1 d spawnPid, [d])
        | none => (ws1, [])
      else (ws1, [])
    | none => (ws, [])
  | _ => (ws, [])

/-- The orchestrator's event loop over a list of received bus messages (each
paired with the OS pid any spawn during its handling would get): the final
managed table and the concatenated launch list. -/
def runMessages (ws : Managed) :
    List (WorkerMessage × Option Nat) → Managed × List String
  | [] => (ws, [])
  | (m, pid) :: rest =>
    let r := handle_worker_message ws m pid
    let r' := runMessages r.1 rest
    (r'.1, r.2 ++ r'.2)

/-! ### Helper lemmas: association lists -/

theorem alookup_aset_self {α : Type} (l : List (String × α)) (k : String)
    (v : α) : alookup (aset l k v) k = some v := by
  induction l with
  | nil => simp [aset, alookup]
  | cons p rest ih =>
    obtain ⟨k', v'⟩ := p
    by_cases h : k' = k
    · simp [aset, alookup, h]
    · simp [aset, alookup, h, ih]

theorem alookup_aset_ne {α : Type} (l : List (String × α)) (k k' : String)
    (v : α) (h : k' ≠ k) : alookup (aset l k v) k' = alookup l k' := by
  have hne : ¬ k = k' := fun hh => h hh.symm
  induction l with
  | nil => simp [aset, alookup, hne]
  | cons p rest ih =>
    obtain ⟨k₀, v₀⟩ := p
    by_cases h0 : k₀ = k
    · subst h0
      simp [aset, alookup, hne]
    · simp only [aset, alookup, if_neg h0]
      by_cases h1 : k₀ = k'
      · simp [alookup, h1]
      · simp [alookup, h1, ih]

/-! ### Helper lemmas: key matching -/

theorem chop_head {c : Char} {ps td r : List Char}
    (h : chop (c :: ps) td = some r) : ∃ ds, td = c :: ds := by
  cases td with
  | nil => simp [chop] at h
  | cons d ds =>
    by_cases hd : d = c
    · exact ⟨ds, by rw [hd]⟩
    · simp [chop, hd] at h

theorem matchKey_none_excl {k₁ k₂ t : String} {c₁ c₂ : Char}
    {r₁ r₂ : List Char} {v : String}
    (h₁ : k₁.data = c₁ :: r₁) (h₂ : k₂.data = c₂ :: r₂) (hne : c₂ ≠ c₁)
    (hm : matchKey k₁ t = some v) : matchKey k₂ t = none := by
  unfold matchKey at hm ⊢
  rw [h₁] at hm
  rw [h₂]
  cases hc : chop (c₁ :: r₁) t.data with
  | none => rw [hc] at hm; simp at hm
  | some w =>
    obtain ⟨ds, hds⟩ := chop_head hc
    have hcc : c₁ ≠ c₂ := fun h => hne h.symm
    rw [hds]
    simp [chop, hcc]

/-! ### Helper lemmas: last-value characterisation of the parser folds -/

theorem kvLast_shift (key : String) (ts : List String) :
    ∀ a : Option String,
      ts.foldl (kvStep key) a =
        match kvLast key ts with
        | some w => some w
        | none => a := by
  induction ts with
  | nil => intro a; simp [kvLast]
  | cons t ts ih =>
    intro a
    rw [List.foldl_cons]
    rw [ih (kvStep key a t)]
    have hr : kvLast key (t :: ts) =
        match kvLast key ts with
        | some w => some w
        | none => kvStep key none t := by
      unfold kvLast
      rw [List.foldl_cons]
      exact ih (kvStep key none t)
    rw [hr]
    cases hk : kvLast key ts <;> cases hm : matchKey key t <;>
      simp [kvStep, hm]

theorem kvLast_cons (key t : String) (ts : List String) :
    kvLast key (t :: ts) =
      match kvLast key ts with
      | some w => some w
      | none => matchKey key t := by
  show (t :: ts).foldl (kvStep key) none = _
  rw [List.foldl_cons, kvLast_shift key ts]
  cases hk : kvLast key ts <;> cases hm : matchKey key t <;>
    simp [kvStep, hm]

theorem foldl_proj_kvLast {σ β : Type} (step : σ → String → σ) (proj : σ → β)
    (f : String → β) (key : String)
    (H : ∀ acc t, proj (step acc t) =
      match matchKey key t with
      | some v => f v
      | none => proj acc)
    (toks : List String) :
    ∀ acc : σ,
      proj (toks.foldl step acc) =
        match kvLast key toks with
        | some v => f v
        | none => proj acc := by
  induction toks with
  | nil => intro acc; simp [kvLast]
  | cons t ts ih =>
    intro acc
    rw [List.foldl_cons, ih (step acc t), kvLast_cons, H]
    cases hk : kvLast key ts <;> cases hm : matchKey key t <;> simp

theorem kvStep_nomatch (key : String) (l : List String)
    (h : ∀ u ∈ l, matchKey key u = none) :
    ∀ a : Option String, l.foldl (kvStep key) a = a := by
  induction l with
  | nil => intro a; rfl
  | cons t ts ih =>
    intro a
    rw [List.foldl_cons]
    have ht : matchKey key t = none := h t (by simp)
    have hts : ∀ u ∈ ts, matchKey key u = none := fun u hu => h u (by simp [hu])
    rw [ih hts]
    simp [kvStep, ht]

/-! ### Projection lemmas for the four token folds.  Each recognised key of
a kind starts with a distinct character, so at most one branch of the
`strip_prefix` chain can fire on a token. -/

theorem helloStep_host (acc : Option String × Option Nat) (t : String) :
    (helloStep acc t).1 =
      match matchKey "host=" t with
      | some v => some v
      | none => acc.1 := by
  cases h1 : matchKey "host=" t with
  | some v => simp [helloStep, h1]
  | none => cases h2 : matchKey "pid=" t <;> simp [helloStep, h1, h2]

theorem helloStep_pid (acc : Option String × Option Nat) (t : String) :
    (helloStep acc t).2 =
      match matchKey "pid=" t with
      | some v => parseU32 v
      | none => acc.2 := by
  cases h1 : matchKey "host=" t with
  | some v =>
    have hp : matchKey "pid=" t = none :=
      matchKey_none_excl rfl rfl (by decide) h1
    simp [helloStep, h1, hp]
  | none => cases h2 : matchKey "pid=" t <;> simp [helloStep, h1, h2]

theorem startStep_tool (acc : String × Option String) (t : String) :
    (startStep acc t).1 =
      match matchKey "tool=" t with
      | some v => v
      | none => acc.1 := by
  cases h1 : matchKey "tool=" t with
  | some v => simp [startStep, h1]
  | none => cases h2 : matchKey "dir=" t <;> simp [startStep, h1, h2]

theorem startStep_dir (acc : String × Option String) (t : String) :
    (startStep acc t).2 =
      match matchKey "dir=" t with
      | some v => some v
      | none => acc.2 := by
  cases h1 : matchKey "tool=" t with
  | some v =>
    have hd : matchKey "dir=" t = none :=
      matchKey_none_excl rfl rfl (by decide) h1
    simp [startStep, h1, hd]
  | none => cases h2 : matchKey "dir=" t <;> simp [startStep, h1, h2]

theorem progressStep_tool (acc : ProgAcc) (t : String) :
    (progressStep acc t).tool =
      match matchKey "tool=" t with
      | some v => v
      | none => acc.tool := by
  cases h1 : matchKey "tool=" t with
  | some v => simp [progressStep, h1]
  | none =>
    cases h2 : matchKey "dir=" t <;> cases h3 : matchKey "msg=" t <;>
      cases h4 : matchKey "bytes=" t <;> simp [progressStep, h1, h2, h3, h4]

theorem progressStep_dir (acc : ProgAcc) (t : String) :
    (progressStep acc t).directory =
      match matchKey "dir=" t with
      | some v => some v
      | none => acc.directory := by
  cases h1 : matchKey "tool=" t with
  | some v =>
    have hd : matchKey "dir=" t = none :=
      matchKey_none_excl rfl rfl (by decide) h1
    simp [progressStep, h1, hd]
  | none =>
    cases h2 : matchKey "dir=" t <;> cases h3 : matchKey "msg=" t <;>
      cases h4 : matchKey "bytes=" t <;> simp [progressStep, h1, h2, h3, h4]

theorem progressStep_msg (acc : ProgAcc) (t : String) :
    (progressStep acc t).message =
      match matchKey "msg=" t with
      | some v => some v
      | none => acc.message := by
  cases h1 : matchKey "tool=" t with
  | some v =>
    have hm : matchKey "msg=" t = none :=
      matchKey_none_excl rfl rfl (by decide) h1
    simp [progressStep, h1, hm]
  | none =>
    cases h2 : matchKey "dir=" t with
    | some v =>
      have hm : matchKey "msg=" t = none :=
        matchKey_none_excl rfl rfl (by decide) h2
      simp [progressStep, h1, h2, hm]
    | none =>
      cases h3 : matchKey "msg=" t <;> cases h4 : matchKey "bytes=" t <;>
        simp [progressStep, h1, h2, h3, h4]

theorem progressStep_bytes (acc : ProgAcc) (t : String) :
    (progressStep acc t).bytes =
      match matchKey "bytes=" t with
      | some v => parseU64 v
      | none => acc.bytes := by
  cases h1 : matchKey "tool=" t with
  | some v =>
    have hb : matchKey "bytes=" t = none :=
      matchKey_none_excl rfl rfl (by decide) h1
    simp [progressStep, h1, hb]
  | none =>
    cases h2 : matchKey "dir=" t with
    | some v =>
      have hb : matchKey "bytes=" t = none :=
        matchKey_none_excl rfl rfl (by decide) h2
      simp [progressStep, h1, h2, hb]
    | none =>
      cases h3 : matchKey "msg=" t with
      | some v =>
        have hb : matchKey "bytes=" t = none :=
          matchKey_none_excl rfl rfl (by decide) h3
        simp [progressStep, h1, h2, h3, hb]
      | none =>
        cases h4 : matchKey "bytes=" t <;> simp [progressStep, h1, h2, h3, h4]

theorem stopStep_tool (acc : StopAcc) (t : String) :
    (stopStep acc t).tool =
      match matchKey "tool=" t with
      | some v => v
      | none => acc.tool := by
  cases h1 : matchKey "tool=" t with
  | some v => simp [stopStep, h1]
  | none =>
    cases h2 : matchKey "dir=" t <;> cases h3 : matchKey "status=" t <;>
      cases h4 : matchKey "bytes=" t <;> cases h5 : matchKey "msg=" t <;>
        simp [stopStep, h1, h2, h3, h4, h5]

theorem stopStep_dir (acc : StopAcc) (t : String) :
    (stopStep acc t).directory =
      match matchKey "dir=" t with
      | some v => some v
      | none => acc.directory := by
  cases h1 : matchKey "tool=" t with
  | some v =>
    have hd : matchKey "dir=" t = none :=
      matchKey_none_excl rfl rfl (by decide) h1
    simp [stopStep, h1, hd]
  | none =>
    cases h2 : matchKey "dir=" t <;> cases h3 : matchKey "status=" t <;>
      cases h4 : matchKey "bytes=" t <;> cases h5 : matchKey "msg=" t <;>
        simp [stopStep, h1, h2, h3, h4, h5]

theorem stopStep_status (acc : StopAcc) (t : String) :
    (stopStep acc t).status =
      match matchKey "status=" t with
      | some v => some v
      | none => acc.status := by
  cases h1 : matchKey "tool=" t with
  | some v =>
    have hs : matchKey "status=" t = none :=
      matchKey_none_excl rfl rfl (by decide) h1
    simp [stopStep, h1, hs]
  | none =>
    cases h2 : matchKey "dir=" t with
    | some v =>
      have hs : matchKey "status=" t = none :=
        matchKey_none_excl rfl rfl (by decide) h2
      simp [stopStep, h1, h2, hs]
    | none =>
      cases h3 : matchKey "status=" t <;> cases h4 : matchKey "bytes=" t <;>
        cases h5 : matchKey "msg=" t <;> simp [stopStep, h1, h2, h3, h4, h5]

theorem stopStep_bytes (acc : StopAcc) (t : String) :
    (stopStep acc t).bytes =
      match matchKey "bytes=" t with
      | some v => parseU64 v
      | none => acc.bytes := by
  cases h1 : matchKey "tool=" t with
  | some v =>
    have hb : matchKey "bytes=" t = none :=
      matchKey_none_excl rfl rfl (by decide) h1
    simp [stopStep, h1, hb]
  | none =>
    cases h2 : matchKey "dir=" t with
    | some v =>
      have hb : matchKey "bytes=" t = none :=
        matchKey_none_excl rfl rfl (by decide) h2
      simp [stopStep, h1, h2, hb]
    | none =>
      cases h3 : matchKey "status=" t with
      | some v =>
        have hb : matchKey "bytes=" t = none :=
          matchKey_none_excl rfl rfl (by decide) h3
        simp [stopStep, h1, h2, h3, hb]
      | none =>
        cases h4 : matchKey "bytes=" t <;> cases h5 : matchKey "msg=" t <;>
          simp [stopStep, h1, h2, h3, h4, h5]

theorem stopStep_msg (acc : StopAcc) (t : String) :
    (stopStep acc t).message =
      match matchKey "msg=" t with
      | some v => some v
      | none => acc.message := by
  cases h1 : matchKey "tool=" t with
  | some v =>
    have hm : matchKey "msg=" t = none :=
      matchKey_none_excl rfl rfl (by decide) h1
    simp [stopStep, h1, hm]
  | none =>
    cases h2 : matchKey "dir=" t with
    | some v =>
      have hm : matchKey "msg=" t = none :=
        matchKey_none_excl rfl rfl (by decide) h2
      simp [stopStep, h1, h2, hm]
    | none =>
      cases h3 : matchKey "status=" t with
      | some v =>
        have hm : matchKey "msg=" t = none :=
          matchKey_none_excl rfl rfl (by decide) h3
        simp [stopStep, h1, h2, h3, hm]
      | none =>
        cases h4 : matchKey "bytes=" t with
        | some v =>
          have hm : matchKey "msg=" t = none :=
            matchKey_none_excl rfl rfl (by decide) h4
          simp [stopStep, h1, h2, h3, h4, hm]
        | none =>
          cases h5 : matchKey "msg=" t <;> simp [stopStep, h1, h2, h3, h4, h5]

/-! ### Per-kind characterisation of the parsed message through `kvLast` -/

theorem mkHello_eq (toks : List String) :
    mkHello toks =
      { message_type := .hello, tool := "unknown", directory := none,
        status := none, bytes := none, message := none,
        host := kvLast "host=" toks,
        pid := (kvLast "pid=" toks).bind parseU32 } := by
  have hh : (List.foldl helloStep (none, none) toks).1 =
      match kvLast "host=" toks with
      | some v => some v
      | none => none :=
    foldl_proj_kvLast helloStep (fun a => a.1) (fun v => some v) "host="
      helloStep_host toks (none, none)
  have hp : (List.foldl helloStep (none, none) toks).2 =
      match kvLast "pid=" toks with
      | some v => parseU32 v
      | none => none :=
    foldl_proj_kvLast helloStep (fun a => a.2) parseU32 "pid="
      helloStep_pid toks (none, none)
  simp only [mkHello, hh, hp]
  cases kvLast "host=" toks <;> cases kvLast "pid=" toks <;> rfl

theorem mkStart_eq (toks : List String) :
    mkStart toks =
      { message_type := .start,
        tool := (kvLast "tool=" toks).getD "unknown",
        directory := kvLast "dir=" toks,
        status := none, bytes := none, message := none,
        host := none, pid := none } := by
  have ht : (List.foldl startStep ("unknown", none) toks).1 =
      match kvLast "tool=" toks with
      | some v => v
      | none => "unknown" :=
    foldl_proj_kvLast startStep (fun a => a.1) (fun v => v) "tool="
      startStep_tool toks ("unknown", none)
  have hd : (List.foldl startStep ("unknown", none) toks).2 =
      match kvLast "dir=" toks with
      | some v => some v
      | none => none :=
    foldl_proj_kvLast startStep (fun a => a.2) (fun v => some v) "dir="
      startStep_dir toks ("unknown", none)
  simp only [mkStart, ht, hd]
  cases kvLast "tool=" toks <;> cases kvLast "dir=" toks <;> rfl

theorem mkProgress_eq (toks : List String) :
    mkProgress toks =
      { message_type := .progress,
        tool := (kvLast "tool=" toks).getD "unknown",
        directory := kvLast "dir=" toks,
        status := none,
        bytes := (kvLast "bytes=" toks).bind parseU64,
        message := kvLast "msg=" toks,
        host := none, pid := none } := by
  have ht : (List.foldl progressStep ⟨"unknown", none, none, none⟩ toks).tool =
      match kvLast "tool=" toks with
      | some v => v
      | none => "unknown" :=
    foldl_proj_kvLast progressStep (fun a => a.tool) (fun v => v) "tool="
      progressStep_tool toks ⟨"unknown", none, none, none⟩
  have hd : (List.foldl progressStep ⟨"unknown", none, none, none⟩
      toks).directory =
      match kvLast "dir=" toks with
      | some v => some v
      | none => none :=
    foldl_proj_kvLast progressStep (fun a => a.directory) (fun v => some v)
      "dir=" progressStep_dir toks ⟨"unknown", none, none, none⟩
  have hm : (List.foldl progressStep ⟨"unknown", none, none, none⟩
      toks).message =
      match kvLast "msg=" toks with
      | some v => some v
      | none => none :=
    foldl_proj_kvLast progressStep (fun a => a.message) (fun v => some v)
      "msg=" progressStep_msg toks ⟨"unknown", none, none, none⟩
  have hb : (List.foldl progressStep ⟨"unknown", none, none, none⟩
      toks).bytes =
      match kvLast "bytes=" toks with
      | some v => parseU64 v
      | none => none :=
    foldl_proj_kvLast progressStep (fun a => a.bytes) parseU64 "bytes="
      progressStep_bytes toks ⟨"unknown", none, none, none⟩
  simp only [mkProgress, ht, hd, hm, hb]
  cases kvLast "tool=" toks <;> cases kvLast "dir=" toks <;>
    cases kvLast "msg=" toks <;> cases kvLast "bytes=" toks <;> rfl

theorem mkStop_eq (toks : List String) :
    mkStop toks =
      { message_type := .stop,
        tool := (kvLast "tool=" toks).getD "unknown",
        directory := kvLast "dir=" toks,
        status := kvLast "status=" toks,
        bytes := (kvLast "bytes=" toks).bind parseU64,
        message := kvLast "msg=" toks,
        host := none, pid := none } := by
  have ht : (List.foldl stopStep ⟨"unknown", none, none, none, none⟩
      toks).tool =
      match kvLast "tool=" toks with
      | some v => v
      | none => "unknown" :=
    foldl_proj_kvLast stopStep (fun a => a.tool) (fun v => v) "tool="
      stopStep_tool toks ⟨"unknown", none, none, none, none⟩
  have hd : (List.foldl stopStep ⟨"unknown", none, none, none, none⟩
      toks).directory =
      match kvLast "dir=" toks with
      | some v => some v
      | none => none :=
    foldl_proj_kvLast stopStep (fun a => a.directory) (fun v => some v)
      "dir=" stopStep_dir toks ⟨"unknown", none, none, none, none⟩
  have hs : (List.foldl stopStep ⟨"unknown", none, none, none, none⟩
      toks).status =
      match kvLast "status=" toks with
      | some v => some v
      | none => none :=
    foldl_proj_kvLast stopStep (fun a => a.status) (fun v => some v)
      "status=" stopStep_status toks ⟨"unknown", none, none, none, none⟩
  have hb : (List.foldl stopStep ⟨"unknown", none, none, none, none⟩
      toks).bytes =
      match kvLast "bytes=" toks with
      | some v => parseU64 v
      | none => none :=
    foldl_proj_kvLast stopStep (fun a => a.bytes) parseU64 "bytes="
      stopStep_bytes toks ⟨"unknown", none, none, none, none⟩
  have hm : (List.foldl stopStep ⟨"unknown", none, none, none, none⟩
      toks).message =
      match kvLast "msg=" toks with
      | some v => some v
      | none => none :=
    foldl_proj_kvLast stopStep (fun a => a.message) (fun v => some v)
      "msg=" stopStep_msg toks ⟨"unknown", none, none, none, none⟩
  simp only [mkStop, ht, hd, hs, hb, hm]
  cases kvLast "tool=" toks <;> cases kvLast "dir=" toks <;>
    cases kvLast "status=" toks <;> cases kvLast "bytes=" toks <;>
      cases kvLast "msg=" toks <;> rfl

/-! ### Helper lemmas: orchestrator, parser failure, identity strings -/

theorem launch_mem (ws : Managed) (m : WorkerMessage) (pid : Option Nat)
    (d : String) (h : d ∈ (handle_worker_message ws m pid).2) :
    m.message_type = .stop ∧ m.tool = "scan" ∧ m.directory = some d ∧
      m.status = some "ok" := by
  cases hmt : m.message_type with
  | stop =>
    simp only [handle_worker_message, hmt] at h
    cases hlk : alookup ws (workerIdOf m.tool m.directory) with
    | none => simp [hlk] at h
    | some w =>
      rw [hlk] at h
      by_cases hok : m.status = some "ok"
      · simp only [hok, if_pos rfl] at h
        by_cases htool : m.tool = "scan"
        · simp only [htool] at h
          cases hdir : m.directory with
          | none => simp [hdir] at h
          | some d' =>
            simp only [hdir] at h
            simp at h
            exact ⟨rfl, htool, by rw [h], hok⟩
        · simp [htool] at h
      · simp [hok] at h
  | hello => simp [handle_worker_message, hmt] at h
  | start => simp [handle_worker_message, hmt] at h
  | progress => simp [handle_worker_message, hmt] at h

theorem parseFromParts_err (parts : List String) :
    (parseFromParts parts).isProtocolError = true ↔
      parts = [] ∨ ∃ t ts, parts = t :: ts ∧ t ≠ "HELLO" ∧ t ≠ "START" ∧
        t ≠ "PROGRESS" ∧ t ≠ "STOP" := by
  cases parts with
  | nil => simp [parseFromParts, ParseResult.isProtocolError]
  | cons t ts =>
    simp only [parseFromParts]
    by_cases h1 : t = "HELLO"
    · subst h1
      rw [if_pos rfl]
      cases ts with
      | nil => simp [ParseResult.isProtocolError]
      | cons a as => simp [ParseResult.isProtocolError]
    · rw [if_neg h1]
      by_cases h2 : t = "START"
      · subst h2
        rw [if_pos rfl]
        simp [ParseResult.isProtocolError]
      · rw [if_neg h2]
        by_cases h3 : t = "PROGRESS"
        · subst h3
          rw [if_pos rfl]
          simp [ParseResult.isProtocolError]
        · rw [if_neg h3]
          by_cases h4 : t = "STOP"
          · subst h4
            rw [if_pos rfl]
            simp [ParseResult.isProtocolError]
          · rw [if_neg h4]
            constructor
            · intro _
              exact Or.inr ⟨t, ts, rfl, h1, h2, h3, h4⟩
            · intro _
              rfl

theorem append_colon_inj (l₁ : List Char) :
    ∀ l₂ r₁ r₂ : List Char, ':' ∉ l₁ → ':' ∉ l₂ →
      l₁ ++ ':' :: r₁ = l₂ ++ ':' :: r₂ → l₁ = l₂ ∧ r₁ = r₂ := by
  induction l₁ with
  | nil =>
    intro l₂ r₁ r₂ _ h2 he
    cases l₂ with
    | nil => simpa using he
    | cons c cs =>
      simp only [List.nil_append, List.cons_append, List.cons.injEq] at he
      obtain ⟨hc, _⟩ := he
      exact absurd (by rw [hc]; exact List.mem_cons_self c cs) h2
  | cons a as ih =>
    intro l₂ r₁ r₂ h1 h2 he
    cases l₂ with
    | nil =>
      simp only [List.nil_append, List.cons_append, List.cons.injEq] at he
      obtain ⟨hc, _⟩ := he
      exact absurd (by simp [hc]) h1
    | cons c cs =>
      simp only [List.cons_append, List.cons.injEq] at he
      obtain ⟨hac, htail⟩ := he
      have h1' : ':' ∉ as := fun hm => h1 (List.mem_cons_of_mem _ hm)
      have h2' : ':' ∉ cs := fun hm => h2 (List.mem_cons_of_mem _ hm)
      obtain ⟨hl, hr⟩ := ih cs r₁ r₂ h1' h2' htail
      exact ⟨by rw [hac, hl], hr⟩

/-! ### Claim theorems -/

/-- C1: over any run of the orchestrator's event loop, every migrate-worker
launch for a directory is caused by a received `Stop` message with
`tool="scan"`, exactly that directory, and status `"ok"`; no launch is
speculative, and no message of any other kind or status (in particular no
failure `Stop`) ever causes a launch, so a failed phase is never retried. -/
theorem migrate_launch_requires_scan_ok_stop (ws : Managed)
    (ms : List (WorkerMessage × Option Nat)) (d : String)
    (h : d ∈ (runMessages ws ms).2) :
    ∃ m pid, (m, pid) ∈ ms ∧ m.message_type = .stop ∧ m.tool = "scan" ∧
      m.directory = some d ∧ m.status = some "ok" := by
  induction ms generalizing ws with
  | nil => simp [runMessages] at h
  | cons p rest ih =>
    obtain ⟨m, pid⟩ := p
    simp only [runMessages, List.mem_append] at h
    rcases h with h1 | h2
    · obtain ⟨ha, hb, hc, hd2⟩ := launch_mem ws m pid d h1
      exact ⟨m, pid, List.mem_cons_self _ _, ha, hb, hc, hd2⟩
    · obtain ⟨m', pid', hmem, hrest⟩ := ih _ h2
      exact ⟨m', pid', List.mem_cons_of_mem _ hmem, hrest⟩

/-- Witness for C1: in a concrete run whose single message is a scan-ok
`Stop` for directory `a` (managed), the launch of `a` is traced back to that
message. -/
theorem migrate_launch_requires_scan_ok_stop_inst :
    ∃ m pid,
      (m, pid) ∈
        ([(⟨.stop, "scan", some "a", some "ok", none, none, none, none⟩,
            (none : Option Nat))] :
          List (WorkerMessage × Option Nat)) ∧
      m.message_type = .stop ∧ m.tool = "scan" ∧ m.directory = some "a" ∧
      m.status = some "ok" :=
  migrate_launch_requires_scan_ok_stop
    [("scan:a", ⟨"scan", "a", .running, none⟩)]
    [(⟨.stop, "scan", some "a", some "ok", none, none, none, none⟩, none)]
    "a" (by decide)

/-- C2 counterexample: the claim asserts exactly one migrate launch per
directory over the whole run, but the managed `scan:a` entry is never
removed, so a run in which the scan-ok `Stop` for `a` is delivered twice
launches a migrate worker for `a` twice. -/
theorem duplicate_stop_ok_launches_twice :
    (runMessages [("scan:a", ⟨"scan", "a", .running, none⟩)]
      [(⟨.stop, "scan", some "a", some "ok", none, none, none, none⟩, none),
       (⟨.stop, "scan", some "a", some "ok", none, none, none, none⟩, none)]).2
      = ["a", "a"] := by decide

/-- C2 (amended): processing one `Stop` whose `tool="scan"`, whose directory
matches a managed scan job, and whose status is `"ok"` causes exactly one
migrate-worker launch at that step, and a `Stop` for that job with any other
(or absent) status causes zero launches; run-level uniqueness holds only
when at most one scan-ok `Stop` arrives per directory. -/
theorem stop_scan_ok_launches_exactly_one_per_message (ws : Managed)
    (m : WorkerMessage) (pid : Option Nat) (d : String) (w : WorkerInfo)
    (h1 : m.message_type = .stop) (h2 : m.tool = "scan")
    (h3 : m.directory = some d)
    (h4 : alookup ws (workerIdOf m.tool m.directory) = some w) :
    (m.status = some "ok" → (handle_worker_message ws m pid).2 = [d]) ∧
    (m.status ≠ some "ok" → (handle_worker_message ws m pid).2 = []) := by
  rw [h2, h3] at h4
  constructor <;> intro hs <;>
    simp [handle_worker_message, h1, h2, h3, h4, hs]

/-- Witness for C2's amended theorem at a concrete managed scan job. -/
theorem stop_scan_ok_launches_exactly_one_per_message_inst :
    (handle_worker_message [("scan:a", ⟨"scan", "a", .running, none⟩)]
      ⟨.stop, "scan", some "a", some "ok", none, none, none, none⟩ none).2
      = ["a"] :=
  (stop_scan_ok_launches_exactly_one_per_message
    [("scan:a", ⟨"scan", "a", .running, none⟩)]
    ⟨.stop, "scan", some "a", some "ok", none, none, none, none⟩ none "a"
    ⟨"scan", "a", .running, none⟩ rfl rfl rfl (by decide)).1 rfl

/-- C3 counterexample: the identity string collapses a missing directory and
the literal directory `"unknown"`: the distinct pairs `("scan", none)` and
`("scan", some "unknown")` map to the same registry/managed key. -/
theorem worker_identity_collision :
    ((("scan" : String), (none : Option String)) ≠
      (("scan" : String), some "unknown")) ∧
    workerIdOf "scan" none = workerIdOf "scan" (some "unknown") := by
  constructor
  · decide
  · decide

/-- C3 (amended): the identity is a deterministic function of
`(tool, directory)` — equal pairs always give the same entry key — and
distinct pairs give distinct keys provided both messages carry a directory
and neither tool name contains `':'`; without those provisos identities can
collide (see the counterexample). -/
theorem worker_identity_deterministic_and_injective_cases :
    (∀ m₁ m₂ : WorkerMessage, m₁.tool = m₂.tool →
      m₁.directory = m₂.directory → messageId m₁ = messageId m₂) ∧
    (∀ t₁ t₂ d₁ d₂ : String, ':' ∉ t₁.data → ':' ∉ t₂.data →
      workerIdOf t₁ (some d₁) = workerIdOf t₂ (some d₂) →
      t₁ = t₂ ∧ d₁ = d₂) := by
  constructor
  · intro m₁ m₂ h1 h2
    unfold messageId
    rw [h1, h2]
  · intro t₁ t₂ d₁ d₂ hc1 hc2 he
    unfold workerIdOf at he
    simp only [Option.getD_some] at he
    have hdata : t₁.data ++ ':' :: d₁.data = t₂.data ++ ':' :: d₂.data := by
      have h1 := congrArg String.data he
      simpa [String.data_append] using h1
    obtain ⟨hl, hr⟩ := append_colon_inj t₁.data t₂.data d₁.data d₂.data
      hc1 hc2 hdata
    exact ⟨String.ext hl, String.ext hr⟩

/-- Witness for C3's amended theorem: injectivity applied at the identical
colon-free pair `("scan", "a")`. -/
theorem worker_identity_deterministic_and_injective_cases_inst :
    ("scan" : String) = "scan" ∧ ("a" : String) = "a" :=
  worker_identity_deterministic_and_injective_cases.2 "scan" "scan" "a" "a"
    (by decide) (by decide) rfl

/-- C4: the registry update of one decoded message performs exactly the
per-kind effect and nothing else: the record is created on first sight with
status `"unknown"` before the kind effect is applied; `Hello` sets host,
pid, connected and status `"connected"`; `Start` sets status `"running"`;
`Progress` sets the last message and, when present, bytes, leaving status
unchanged; `Stop` sets status to the message status or `"completed"` when
absent and updates bytes when present; all other fields and all other
registry entries are untouched. -/
theorem registry_update_per_kind (m : WorkerMessage) (reg : Registry)
    (w : WorkerState) :
    alookup (registryStep m reg) (messageId m) =
      some (applyMessage m ((alookup reg (messageId m)).getD (freshState m))) ∧
    (freshState m).status = "unknown" ∧
    (m.message_type = .hello →
      applyMessage m w =
        { w with host := m.host, pid := m.pid, connected := true,
                 status := "connected" }) ∧
    (m.message_type = .start →
      applyMessage m w = { w with status := "running" }) ∧
    (m.message_type = .progress →
      applyMessage m w =
        { w with last_message := m.message,
                 bytes_transferred := m.bytes.or w.bytes_transferred }) ∧
    (m.message_type = .stop →
      applyMessage m w =
        { w with status := m.status.getD "completed",
                 bytes_transferred := m.bytes.or w.bytes_transferred }) ∧
    (∀ k, k ≠ messageId m →
      alookup (registryStep m reg) k = alookup reg k) := by
  refine ⟨?_, rfl, ?_, ?_, ?_, ?_, ?_⟩
  · unfold registryStep
    exact alookup_aset_self _ _ _
  · intro h
    simp [applyMessage, h]
  · intro h
    simp [applyMessage, h]
  · intro h
    cases hb : m.bytes <;> simp [applyMessage, h, hb, Option.or]
  · intro h
    cases hb : m.bytes <;> simp [applyMessage, h, hb, Option.or]
  · intro k hk
    unfold registryStep
    exact alookup_aset_ne _ _ _ _ hk

/-- Witness for C4: the `Hello` effect evaluated on a concrete record. -/
theorem registry_update_per_kind_inst :
    applyMessage ⟨.hello, "w", some "a", none, none, none, some "h", some 3⟩
      ⟨"w", some "a", "running", none, none, none, none, true⟩ =
      ⟨"w", some "a", "connected", none, none, some "h", some 3, true⟩ :=
  (registry_update_per_kind
    ⟨.hello, "w", some "a", none, none, none, some "h", some 3⟩ []
    ⟨"w", some "a", "running", none, none, none, none, true⟩).2.2.1 rfl

/-- C5: decoding a line fails with a protocol error exactly when the line
has no tokens (it is empty) or its first whitespace-separated token is not
one of `HELLO`, `START`, `PROGRESS`, `STOP` (case-sensitive); on such a
failure the connection handler leaves the registry and its connection state
untouched, publishes nothing, and keeps reading the remaining lines. -/
theorem protocol_error_iff_unknown_or_empty (l : String) (st : ConnState)
    (ls : List String) :
    ((parse_worker_message l).isProtocolError = true ↔
      tokens l = [] ∨ ∃ t ts, tokens l = t :: ts ∧ t ≠ "HELLO" ∧
        t ≠ "START" ∧ t ≠ "PROGRESS" ∧ t ≠ "STOP") ∧
    ((parse_worker_message (trimStr l)).isProtocolError = true →
      handleLine st l = .next st none) ∧
    ((parse_worker_message (trimStr l)).isProtocolError = true →
      processLines st (l :: ls) = processLines st ls) := by
  have hL : (parse_worker_message (trimStr l)).isProtocolError = true →
      handleLine st l = .next st none := by
    intro hpe
    unfold handleLine
    by_cases he : (trimStr l).data = []
    · simp [he]
    · rw [if_neg he]
      cases hp : parse_worker_message (trimStr l) with
      | ok m => rw [hp] at hpe; simp [ParseResult.isProtocolError] at hpe
      | protocolError e => rfl
      | panicked => rw [hp] at hpe; simp [ParseResult.isProtocolError] at hpe
  refine ⟨parseFromParts_err (tokens l), hL, fun hpe => ?_⟩
  simp [processLines, hL hpe]

/-- Witness for C5: the malformed line `"FLY a"` is skipped and processing
continues. -/
theorem protocol_error_iff_unknown_or_empty_inst :
    processLines ⟨[], none⟩ ["FLY a"] = processLines ⟨[], none⟩ [] :=
  (protocol_error_iff_unknown_or_empty "FLY a" ⟨[], none⟩ []).2.2 (by decide)

/-- C6 counterexample: a `host=` pair in the first token slot after `HELLO`
is silently ignored (`&parts[2..]` skips it): the decoded message has
`host = none` although the line carries `host=h`, refuting position
independence for `HELLO` pairs. -/
theorem hello_first_slot_pair_ignored :
    parse_worker_message "HELLO host=h pid=12" =
      .ok ⟨.hello, "unknown", none, none, none, none, none, some 12⟩ := by
  decide

/-- C6 (amended): for `START`, `PROGRESS` and `STOP`, every recognised key's
value is extracted from the tokens after the kind token independently of
position (the last occurrence winning), and unrecognised keys are ignored;
for `HELLO` the same holds only for the tokens strictly after the first
token following `HELLO` — the token in the version slot is never examined.
The final conjunct makes position independence explicit: a key occurring
exactly once is extracted wherever it sits. -/
theorem kv_pairs_order_insensitive :
    (∀ (v : String) (rest : List String),
      parseFromParts ("HELLO" :: v :: rest) =
        .ok { message_type := .hello, tool := "unknown", directory := none,
              status := none, bytes := none, message := none,
              host := kvLast "host=" rest,
              pid := (kvLast "pid=" rest).bind parseU32 }) ∧
    (∀ rest : List String,
      parseFromParts ("START" :: rest) =
        .ok { message_type := .start,
              tool := (kvLast "tool=" rest).getD "unknown",
              directory := kvLast "dir=" rest,
              status := none, bytes := none, message := none,
              host := none, pid := none }) ∧
    (∀ rest : List String,
      parseFromParts ("PROGRESS" :: rest) =
        .ok { message_type := .progress,
              tool := (kvLast "tool=" rest).getD "unknown",
              directory := kvLast "dir=" rest,
              status := none,
              bytes := (kvLast "bytes=" rest).bind parseU64,
              message := kvLast "msg=" rest,
              host := none, pid := none }) ∧
    (∀ rest : List String,
      parseFromParts ("STOP" :: rest) =
        .ok { message_type := .stop,
              tool := (kvLast "tool=" rest).getD "unknown",
              directory := kvLast "dir=" rest,
              status := kvLast "status=" rest,
              bytes := (kvLast "bytes=" rest).bind parseU64,
              message := kvLast "msg=" rest,
              host := none, pid := none }) ∧
    (∀ (key v t : String) (pre post : List String),
      matchKey key t = some v →
      (∀ u ∈ pre, matchKey key u = none) →
      (∀ u ∈ post, matchKey key u = none) →
      kvLast key (pre ++ t :: post) = some v) := by
  refine ⟨?_, ?_, ?_, ?_, ?_⟩
  · intro v rest
    have hp : parseFromParts ("HELLO" :: v :: rest) = .ok (mkHello rest) :=
      rfl
    rw [hp, mkHello_eq]
  · intro rest
    have hp : parseFromParts ("START" :: rest) = .ok (mkStart rest) := rfl
    rw [hp, mkStart_eq]
  · intro rest
    have hp : parseFromParts ("PROGRESS" :: rest) = .ok (mkProgress rest) :=
      rfl
    rw [hp, mkProgress_eq]
  · intro rest
    have hp : parseFromParts ("STOP" :: rest) = .ok (mkStop rest) := rfl
    rw [hp, mkStop_eq]
  · intro key v t pre post hm hpre hpost
    unfold kvLast
    rw [List.foldl_append, kvStep_nomatch key pre hpre none,
      List.foldl_cons]
    have hstep : kvStep key none t = some v := by simp [kvStep, hm]
    rw [hstep]
    exact kvStep_nomatch key post hpost (some v)

/-- Witness for C6's amended theorem: a unique `dir=` pair is extracted
from between unrelated tokens. -/
theorem kv_pairs_order_insensitive_inst :
    kvLast "dir=" (["tool=scan"] ++ "dir=a" :: ["bytes=7"]) = some "a" :=
  kv_pairs_order_insensitive.2.2.2.2 "dir=" "a" "dir=a" ["tool=scan"]
    ["bytes=7"] (by decide) (by decide) (by decide)

/-- C7 counterexample: a decoded `Hello` does carry a tool value — the
mandatory `tool` field is filled with the sentinel string `"unknown"`,
which is indistinguishable from a worker whose tool is literally named
`unknown`, refuting the claim that no tool value is present. -/
theorem hello_tool_sentinel :
    parse_worker_message "HELLO v1 host=h" =
      .ok ⟨.hello, "unknown", none, none, none, none, some "h", none⟩ := by
  decide

/-- C7 (amended): for every decoded message the optional fields not
applicable to its kind are absent (`none`) — a `Hello` carries no
directory, status, bytes or progress message, a `Start` no status, bytes,
message, host or pid, and so on — but the `tool` field is mandatory in the
message record and is defaulted to the sentinel `"unknown"` for `Hello`
(and whenever `tool=` is missing), rather than being absent. -/
theorem inapplicable_fields_absent_except_tool :
    (∀ (v : String) (rest : List String), ∃ m,
      parseFromParts ("HELLO" :: v :: rest) = .ok m ∧ m.directory = none ∧
      m.status = none ∧ m.bytes = none ∧ m.message = none ∧
      m.tool = "unknown") ∧
    (∀ rest : List String, ∃ m,
      parseFromParts ("START" :: rest) = .ok m ∧ m.status = none ∧
      m.bytes = none ∧ m.message = none ∧ m.host = none ∧ m.pid = none) ∧
    (∀ rest : List String, ∃ m,
      parseFromParts ("PROGRESS" :: rest) = .ok m ∧ m.status = none ∧
      m.host = none ∧ m.pid = none) ∧
    (∀ rest : List String, ∃ m,
      parseFromParts ("STOP" :: rest) = .ok m ∧ m.host = none ∧
      m.pid = none) :=
  ⟨fun _ rest => ⟨mkHello rest, rfl, rfl, rfl, rfl, rfl, rfl⟩,
   fun rest => ⟨mkStart rest, rfl, rfl, rfl, rfl, rfl, rfl⟩,
   fun rest => ⟨mkProgress rest, rfl, rfl, rfl, rfl⟩,
   fun rest => ⟨mkStop rest, rfl, rfl, rfl⟩⟩

/-- C8: when a connection reaches end-of-stream with an identity associated
and a record present, exactly that record's connectivity flag is cleared:
the record is not deleted, every other field keeps its last value, every
other registry entry is untouched, nothing is published on the status bus,
and consequently the orchestrator's job state undergoes no transition. -/
theorem eof_clears_connected_flag_only (st : ConnState) (id : String)
    (w : WorkerState) (hwid : st.workerId = some id)
    (hw : alookup st.registry id = some w) :
    alookup (handleEofStep st).1 id =
      some ⟨w.tool, w.directory, w.status, w.last_message,
        w.bytes_transferred, w.host, w.pid, false⟩ ∧
    (∀ k, k ≠ id → alookup (handleEofStep st).1 k = alookup st.registry k) ∧
    (handleEofStep st).2 = [] ∧
    (∀ mgr : Managed,
      runMessages mgr ((handleEofStep st).2.map (fun mm => (mm, none))) =
        (mgr, [])) := by
  refine ⟨?_, ?_, rfl, fun mgr => rfl⟩
  · simp only [handleEofStep, handleEof, hwid, hw]
    rw [alookup_aset_self]
  · intro k hk
    simp only [handleEofStep, handleEof, hwid, hw]
    exact alookup_aset_ne _ _ _ _ hk

/-- Witness for C8 on a one-record registry. -/
theorem eof_clears_connected_flag_only_inst :
    alookup
      (handleEofStep
        ⟨[("scan:a",
            ⟨"scan", some "a", "running", none, none, none, none, true⟩)],
          some "scan:a"⟩).1 "scan:a" =
      some ⟨"scan", some "a", "running", none, none, none, none, false⟩ :=
  (eof_clears_connected_flag_only
    ⟨[("scan:a",
        ⟨"scan", some "a", "running", none, none, none, none, true⟩)],
      some "scan:a"⟩ "scan:a"
    ⟨"scan", some "a", "running", none, none, none, none, true⟩
    rfl (by decide)).1

/-- C9 counterexample: a bare `HELLO` line does not decode at all — the
`&parts[2..]` slice index is out of range for the one-token line, so the
parser panics and the connection-handler task dies, refuting the claim for
this `HELLO` line. -/
theorem bare_hello_panics : parse_worker_message "HELLO" = .panicked := by
  decide

/-- C9 (amended): every `HELLO` line with at least one token after `HELLO`
decodes to a message whose tool is the literal `"unknown"` and whose
directory is absent, so the registry update triggered by any decoded
`Hello` targets the single entry keyed `"unknown:unknown"`; a bare `HELLO`
line instead panics the handler (see the counterexample). -/
theorem hello_targets_unknown_entry (v : String) (rest : List String) :
    ∃ m, parseFromParts ("HELLO" :: v :: rest) = .ok m ∧
      m.tool = "unknown" ∧ m.directory = none ∧
      messageId m = "unknown:unknown" :=
  ⟨mkHello rest, rfl, rfl, rfl, rfl⟩

/-- C10: a `Stop` message whose `(tool, directory)` identity matches no
entry of the orchestrator's managed-worker table leaves the table
completely unchanged and launches nothing — even when `tool="scan"` and
`status="ok"`. -/
theorem unmanaged_stop_leaves_table_unchanged (ws : Managed)
    (m : WorkerMessage) (pid : Option Nat) (h1 : m.message_type = .stop)
    (h2 : alookup ws (workerIdOf m.tool m.directory) = none) :
    handle_worker_message ws m pid = (ws, []) := by
  simp [handle_worker_message, h1, h2]

/-- Witness for C10: a scan-ok `Stop` against an empty managed table. -/
theorem unmanaged_stop_leaves_table_unchanged_inst :
    handle_worker_message []
      ⟨.stop, "scan", some "a", some "ok", none, none, none, none⟩ none =
      ([], []) :=
  unmanaged_stop_leaves_table_unchanged []
    ⟨.stop, "scan", some "a", some "ok", none, none, none, none⟩ none rfl
    (by decide)

end Freight
